import Mathlib

/-!
Verification of the containerd wasmtime shim's orchestration logic
(`crates/containerd-shim-wasmtime/src/instance.rs` and
`crates/containerd-shim-wasmtime/src/http_proxy.rs`), as a shallow
embedding: pure Lean functions mirror the Rust functions, external
collaborators (the wasmtime engine, the standard library's parsers,
the async runtime's event interleavings) appear as parameters or as
explicit event sequences.
-/

/-! ## Component target resolution (instance.rs, `ComponentTarget::new`) -/

/-- Rust `str::starts_with(pat)`: the pattern's characters are a prefix of
the string's characters. -/
def strStartsWith (s pat : String) : Bool :=
  pat.data.isPrefixOf s.data

/-- The WASI API a component targets (instance.rs `ComponentTarget`). -/
inductive ComponentTarget where
  | Command : ComponentTarget
  | HttpProxy : ComponentTarget
  | Core : String → ComponentTarget
deriving DecidableEq, Repr

/-- The body of the closure passed to `find_map` in `ComponentTarget::new`:
which target, if any, a single export name is recognized as. -/
def recognizeExport (name : String) : Option ComponentTarget :=
  if strStartsWith name "wasi:http/incoming-handler" then some ComponentTarget.HttpProxy
  else if strStartsWith name "wasi:cli/run" then some ComponentTarget.Command
  else none

/-- instance.rs `ComponentTarget::new`: scan the exports (pairs of a name and
an opaque `ComponentItem`, here `α`) in order, take the first recognized
match, and fall back to `Core(func)`. -/
def ComponentTarget.new {α : Type} (exports : List (String × α)) (func : String) :
    ComponentTarget :=
  (exports.findSome? fun p => recognizeExport p.1).getD (ComponentTarget.Core func)

/-- The export name starts with `wasi:http/incoming-handler`. -/
def isHttpExport (name : String) : Bool :=
  strStartsWith name "wasi:http/incoming-handler"

/-- The export name starts with `wasi:cli/run`. -/
def isRunExport (name : String) : Bool :=
  strStartsWith name "wasi:cli/run"

theorem recognizeExport_eq (name : String) :
    recognizeExport name =
      (if isHttpExport name then some ComponentTarget.HttpProxy
       else if isRunExport name then some ComponentTarget.Command
       else none) := rfl

theorem componentTarget_new_nil {α : Type} (func : String) :
    ComponentTarget.new ([] : List (String × α)) func = ComponentTarget.Core func := rfl

theorem componentTarget_new_cons {α : Type} (y : String × α)
    (rest : List (String × α)) (func : String) :
    ComponentTarget.new (y :: rest) func =
      (recognizeExport y.1).getD (ComponentTarget.new rest func) := by
  unfold ComponentTarget.new
  rw [List.findSome?_cons]
  cases h : recognizeExport y.1 <;> simp [h]

/-- A string starting with `wasi:cli/run` cannot also start with
`wasi:http/incoming-handler`: neither literal is a prefix of the other. -/
theorem isRunExport_not_http (n : String) (h : isRunExport n = true) :
    isHttpExport n = false := by
  unfold isRunExport isHttpExport strStartsWith at *
  rw [List.isPrefixOf_iff_prefix] at h
  by_contra hc
  rw [Bool.not_eq_false, List.isPrefixOf_iff_prefix] at hc
  rcases List.prefix_or_prefix_of_prefix h hc with hp | hp
  · exact absurd hp (by decide)
  · exact absurd hp (by decide)

theorem componentTarget_new_http {α : Type} (func : String) (x : String × α)
    (pre post : List (String × α)) (hx : isHttpExport x.1 = true)
    (hpre : ∀ y ∈ pre, isRunExport y.1 = false) :
    ComponentTarget.new (pre ++ x :: post) func = ComponentTarget.HttpProxy := by
  induction pre with
  | nil =>
    rw [List.nil_append, componentTarget_new_cons, recognizeExport_eq, hx]
    rfl
  | cons y pre ih =>
    rw [List.cons_append, componentTarget_new_cons, recognizeExport_eq]
    have hyr : isRunExport y.1 = false := hpre y (List.mem_cons_self y pre)
    cases hyh : isHttpExport y.1 with
    | true => rfl
    | false =>
      rw [hyr]
      simp only [Option.getD_none, if_false, Bool.false_eq_true]
      exact ih fun z hz => hpre z (List.mem_cons_of_mem y hz)

theorem componentTarget_new_run {α : Type} (func : String) (x : String × α)
    (pre post : List (String × α)) (hx : isRunExport x.1 = true)
    (hpre : ∀ y ∈ pre, isHttpExport y.1 = false) :
    ComponentTarget.new (pre ++ x :: post) func = ComponentTarget.Command := by
  induction pre with
  | nil =>
    rw [List.nil_append, componentTarget_new_cons, recognizeExport_eq,
      isRunExport_not_http x.1 hx, hx]
    rfl
  | cons y pre ih =>
    rw [List.cons_append, componentTarget_new_cons, recognizeExport_eq,
      hpre y (List.mem_cons_self y pre)]
    cases hyr : isRunExport y.1 with
    | true => rfl
    | false =>
      simp only [Option.getD_none, if_false, Bool.false_eq_true]
      exact ih fun z hz => hpre z (List.mem_cons_of_mem y hz)

theorem componentTarget_new_core {α : Type} (func : String)
    (exports : List (String × α)) (hnone : ∀ p ∈ exports, recognizeExport p.1 = none) :
    ComponentTarget.new exports func = ComponentTarget.Core func := by
  induction exports with
  | nil => rfl
  | cons y rest ih =>
    rw [componentTarget_new_cons, hnone y (List.mem_cons_self y rest)]
    exact ih fun z hz => hnone z (List.mem_cons_of_mem y hz)

/-- C1: target resolution scans the exports in listed order and returns the
first recognized match — an export starting with `wasi:http/incoming-handler`
yields `HttpProxy`, one starting with `wasi:cli/run` yields `Command`; an
incoming-handler entry anywhere before any cli/run entry yields `HttpProxy`
and the reversed order yields `Command`; with no recognized export the result
is `Core` carrying the requested function name unchanged; resolution is a
total function and never fails. -/
theorem C1_component_target_resolution {α : Type} (func : String) (x : String × α)
    (pre post exports : List (String × α)) :
    (ComponentTarget.new ([] : List (String × α)) func = ComponentTarget.Core func)
    ∧ (∀ (y : String × α) (rest : List (String × α)),
        ComponentTarget.new (y :: rest) func =
          (recognizeExport y.1).getD (ComponentTarget.new rest func))
    ∧ (isHttpExport x.1 = true → (∀ y ∈ pre, isRunExport y.1 = false) →
        ComponentTarget.new (pre ++ x :: post) func = ComponentTarget.HttpProxy)
    ∧ (isRunExport x.1 = true → (∀ y ∈ pre, isHttpExport y.1 = false) →
        ComponentTarget.new (pre ++ x :: post) func = ComponentTarget.Command)
    ∧ ((∀ p ∈ exports, recognizeExport p.1 = none) →
        ComponentTarget.new exports func = ComponentTarget.Core func) :=
  ⟨componentTarget_new_nil func,
   fun y rest => componentTarget_new_cons y rest func,
   fun hx hpre => componentTarget_new_http func x pre post hx hpre,
   fun hx hpre => componentTarget_new_run func x pre post hx hpre,
   fun hnone => componentTarget_new_core func exports hnone⟩

/-- C1 witness: the claim theorem, instantiated on a concrete export list
where an incoming-handler export sits before a cli/run export, yields
`HttpProxy`. -/
theorem C1_component_target_witness :
    ComponentTarget.new
      [("wasi:http/incoming-handler@0.2.0", ()), ("wasi:cli/run@0.2.0", ())] "start" =
      ComponentTarget.HttpProxy :=
  (C1_component_target_resolution "start" ("wasi:http/incoming-handler@0.2.0", ())
      [] [("wasi:cli/run@0.2.0", ())] []).2.2.1 (by decide)
    (by intro y hy; simp at hy)

/-! ## Batch precompilation (instance.rs, `WasmtimeEngine::precompile`) -/

/-- Classification of a precompiled artifact (wasmtime's `Precompiled`). -/
inductive Precompiled where
  | Module : Precompiled
  | Component : Precompiled
deriving DecidableEq, Repr

/-- Classification of source wasm bytes (`WasmBinaryType::from_bytes`). -/
inductive WasmBinaryType where
  | Module : WasmBinaryType
  | Component : WasmBinaryType
deriving DecidableEq, Repr

/-- One OCI layer carrying wasm bytes (containerd-shim-wasm's `WasmLayer`,
reduced to the `layer` byte field, the only field `precompile` reads). -/
structure WasmLayer where
  layer : List Nat
deriving DecidableEq, Repr

/-- The wasmtime engine operations `precompile` calls, as an external
collaborator: artifact detection, binary-type classification, and the two
fallible ahead-of-time compilers. -/
structure PrecompileEngine where
  detect_precompiled : List Nat → Option Precompiled
  from_bytes : List Nat → Option WasmBinaryType
  precompile_module : List Nat → Except String (List Nat)
  precompile_component : List Nat → Except String (List Nat)

/-- instance.rs `WasmtimeEngine::precompile`: walk the layers, pushing `none`
for an already-precompiled layer, pushing the compiled artifact for a
recognized module or component (a compile error aborts the whole call, as
`?` does), and — exactly as the source's `continue` in the unrecognized
branch does — pushing nothing at all for a layer of unknown binary type. -/
def precompile (eng : PrecompileEngine) :
    List WasmLayer → Except String (List (Option (List Nat)))
  | [] => Except.ok []
  | l :: rest =>
    if (eng.detect_precompiled l.layer).isSome then
      (precompile eng rest).map (fun acc => none :: acc)
    else
      match eng.from_bytes l.layer with
      | some WasmBinaryType.Module =>
        match eng.precompile_module l.layer with
        | Except.error e => Except.error e
        | Except.ok blob => (precompile eng rest).map (fun acc => some blob :: acc)
      | some WasmBinaryType.Component =>
        match eng.precompile_component l.layer with
        | Except.error e => Except.error e
        | Except.ok blob => (precompile eng rest).map (fun acc => some blob :: acc)
      | none => precompile eng rest

/-- The entry a single layer contributes to `precompile`'s output: `some none`
for an already-precompiled layer, `some (some blob)` for a successfully
compiled one, and `none` (no entry at all) for an unrecognized layer. -/
def precompileEntry (eng : PrecompileEngine) (l : WasmLayer) :
    Option (Option (List Nat)) :=
  if (eng.detect_precompiled l.layer).isSome then some none
  else
    match eng.from_bytes l.layer with
    | some WasmBinaryType.Module => (eng.precompile_module l.layer).toOption.map some
    | some WasmBinaryType.Component => (eng.precompile_component l.layer).toOption.map some
    | none => none

/-- An engine on which every layer is unrecognized: nothing is detected as
precompiled and no binary type is assigned. -/
def unknownLayerEngine : PrecompileEngine where
  detect_precompiled := fun _ => none
  from_bytes := fun _ => none
  precompile_module := fun b => Except.ok b
  precompile_component := fun b => Except.ok b

/-- C3 counterexample: on an engine that recognizes nothing, a one-layer
input produces an empty output — not one (absent) entry per input layer as
the claim states: the unrecognized layer is skipped without pushing. -/
theorem C3_precompile_counterexample :
    precompile unknownLayerEngine [WasmLayer.mk [0]] = Except.ok []
    ∧ ([] : List (Option (List Nat))).length ≠ [WasmLayer.mk [0]].length :=
  ⟨rfl, by decide⟩

/-- C3 amended: whenever every recognized layer compiles successfully,
`precompile` succeeds and returns, in input order, `none` for each layer
already in precompiled form and the compiled artifact for each recognized
source layer, while a layer of unrecognized binary type contributes no entry
at all (it is skipped, never failing the whole call), so the output can be
shorter than the input. -/
theorem C3_precompile_amended (eng : PrecompileEngine) (layers : List WasmLayer)
    (hm : ∀ l ∈ layers, eng.detect_precompiled l.layer = none →
      eng.from_bytes l.layer = some WasmBinaryType.Module →
      (eng.precompile_module l.layer).isOk = true)
    (hc : ∀ l ∈ layers, eng.detect_precompiled l.layer = none →
      eng.from_bytes l.layer = some WasmBinaryType.Component →
      (eng.precompile_component l.layer).isOk = true) :
    precompile eng layers = Except.ok (layers.filterMap (precompileEntry eng))
    ∧ (layers.filterMap (precompileEntry eng)).length ≤ layers.length := by
  refine ⟨?_, List.length_filterMap_le _ _⟩
  induction layers with
  | nil => rfl
  | cons l rest ih =>
    have hrec := ih (fun z hz => hm z (List.mem_cons_of_mem l hz))
      (fun z hz => hc z (List.mem_cons_of_mem l hz))
    cases hdet : eng.detect_precompiled l.layer with
    | some p =>
      simp only [precompile, List.filterMap_cons, precompileEntry, hdet,
        Option.isSome_some, if_true, hrec]
      rfl
    | none =>
      cases hby : eng.from_bytes l.layer with
      | none =>
        simp only [precompile, List.filterMap_cons, precompileEntry, hdet,
          Option.isSome_none, Bool.false_eq_true, if_false, hby, hrec]
      | some b =>
        cases b with
        | Module =>
          have hok := hm l (List.mem_cons_self l rest) hdet hby
          cases hpc : eng.precompile_module l.layer with
          | error e => rw [hpc] at hok; exact absurd hok (by simp [Except.isOk, Except.toBool])
          | ok blob =>
            simp only [precompile, List.filterMap_cons, precompileEntry, hdet,
              Option.isSome_none, Bool.false_eq_true, if_false, hby, hpc, hrec]
            rfl
        | Component =>
          have hok := hc l (List.mem_cons_self l rest) hdet hby
          cases hpc : eng.precompile_component l.layer with
          | error e => rw [hpc] at hok; exact absurd hok (by simp [Except.isOk, Except.toBool])
          | ok blob =>
            simp only [precompile, List.filterMap_cons, precompileEntry, hdet,
              Option.isSome_none, Bool.false_eq_true, if_false, hby, hpc, hrec]
            rfl

/-- An engine exercising all three layer kinds: byte `0` is detected as
already precompiled, byte `1` classifies as a module, byte `2` as a
component, and anything else is unrecognized; compilation appends `9`. -/
def mixedLayerEngine : PrecompileEngine where
  detect_precompiled := fun b => if b = [0] then some Precompiled.Module else none
  from_bytes := fun b =>
    if b = [1] then some WasmBinaryType.Module
    else if b = [2] then some WasmBinaryType.Component
    else none
  precompile_module := fun b => Except.ok (b ++ [9])
  precompile_component := fun b => Except.ok (b ++ [9])

/-- C3 witness: the amended theorem applied to a concrete engine and a
four-layer input (precompiled, module, unrecognized, component): the output
keeps input order, has `none` for the precompiled layer, artifacts for the
recognized ones, and no entry for the unrecognized one. -/
theorem C3_precompile_witness :
    precompile mixedLayerEngine
        [WasmLayer.mk [0], WasmLayer.mk [1], WasmLayer.mk [7], WasmLayer.mk [2]] =
      Except.ok [none, some [1, 9], some [2, 9]] := by
  have h := (C3_precompile_amended mixedLayerEngine
    [WasmLayer.mk [0], WasmLayer.mk [1], WasmLayer.mk [7], WasmLayer.mk [2]]
    (by decide) (by decide)).1
  rw [h]; rfl

/-! ## Environment marshaling (instance.rs, `envs_from_ctx`) -/

/-- Rust `str::split_once(c)`: split at the first occurrence of `c`, giving
the parts before and after it, or `none` when `c` does not occur. -/
def splitOnce (c : Char) : List Char → Option (List Char × List Char)
  | [] => none
  | x :: xs =>
    if x = c then some ([], xs)
    else
      match splitOnce c xs with
      | none => none
      | some (a, b) => some (x :: a, b)

/-- The per-string body of `envs_from_ctx`:
`v.split_once('=').unwrap_or((v, ""))`. -/
def envPair (v : String) : String × String :=
  match splitOnce '=' v.data with
  | some (k, val) => (String.mk k, String.mk val)
  | none => (v, "")

/-- instance.rs `envs_from_ctx`, with the runtime context reduced to its
`envs()` list of `KEY=VALUE` strings. -/
def envs_from_ctx (envs : List String) : List (String × String) :=
  envs.map envPair

theorem splitOnce_not_mem (c : Char) (l : List Char) (h : c ∉ l) :
    splitOnce c l = none := by
  induction l with
  | nil => rfl
  | cons x xs ih =>
    have hx : ¬x = c := fun he => h (he ▸ List.mem_cons_self x xs)
    simp only [splitOnce, if_neg hx, ih fun hm => h (List.mem_cons_of_mem x hm)]

theorem splitOnce_append (c : Char) (a b : List Char) (h : c ∉ a) :
    splitOnce c (a ++ c :: b) = some (a, b) := by
  induction a with
  | nil => simp [splitOnce]
  | cons x xs ih =>
    have hx : ¬x = c := fun he => h (he ▸ List.mem_cons_self x xs)
    have hr : splitOnce c (xs ++ c :: b) = some (xs, b) :=
      ih fun hm => h (List.mem_cons_of_mem x hm)
    simp only [List.cons_append, splitOnce, if_neg hx]
    rw [show xs.append (c :: b) = xs ++ c :: b from rfl, hr]

/-- C9: `envs_from_ctx` maps each environment string to a pair, splitting at
the first `=`: no string is dropped or rejected (the output has one pair per
input string, in order), a string `a=b` with no `=` in `a` maps to `(a, b)`,
and a string with no `=` at all maps to the whole string paired with the
empty value. -/
theorem C9_envs_from_ctx_split (envs : List String) (s : String)
    (a b : List Char) :
    (envs_from_ctx envs).length = envs.length
    ∧ envs_from_ctx envs = envs.map envPair
    ∧ (s.data = a ++ '=' :: b → ('=' ∉ a) →
        envPair s = (String.mk a, String.mk b))
    ∧ ('=' ∉ s.data → envPair s = (s, "")) := by
  refine ⟨List.length_map envs envPair, rfl, ?_, ?_⟩
  · intro hs ha
    unfold envPair
    rw [hs, splitOnce_append '=' a b ha]
  · intro hnm
    unfold envPair
    rw [splitOnce_not_mem '=' s.data hnm]

/-- C9 witness: the claim theorem applied to the concrete input
`["FOO=bar=baz", "NOEQ"]`: the first string splits at its first `=`, the
second maps to itself with an empty value. -/
theorem C9_envs_from_ctx_witness :
    envs_from_ctx ["FOO=bar=baz", "NOEQ"] = [("FOO", "bar=baz"), ("NOEQ", "")] := by
  have h1 := (C9_envs_from_ctx_split ["FOO=bar=baz", "NOEQ"] "FOO=bar=baz"
    "FOO".data "bar=baz".data).2.2.1 (by decide) (by decide)
  have h2 := (C9_envs_from_ctx_split ["FOO=bar=baz", "NOEQ"] "NOEQ"
    [] []).2.2.2 (by decide)
  show [envPair "FOO=bar=baz", envPair "NOEQ"] = _
  rw [h1, h2]

/-! ## Exit-code normalization (instance.rs, `IntoErrorCode`) -/

/-- An `anyhow::Error` as `into_error_code` can observe it: either it
downcasts to `wasmtime_wasi::I32Exit` (a guest-requested process exit
carrying its code) or it is any other error, kept abstract as a message. -/
inductive WasmError where
  | i32Exit : Int → WasmError
  | otherError : String → WasmError
deriving DecidableEq, Repr

/-- Modelled from the spec: `err.downcast_ref::<I32Exit>()` combined with
`I32Exit::process_exit_code` (wasmtime_wasi, outside this repository)
succeeds exactly on a guest-requested exit and yields the carried code. -/
def downcastI32Exit : WasmError → Option Int
  | WasmError.i32Exit n => some n
  | WasmError.otherError _ => none

/-- instance.rs `IntoErrorCode for Result<i32>`: `or_else` on the error,
unwrapping a guest exit into its code and keeping any other error. -/
def into_error_code_i32 (r : Except WasmError Int) : Except WasmError Int :=
  match r with
  | Except.ok v => Except.ok v
  | Except.error err =>
    match downcastI32Exit err with
    | some value => Except.ok value
    | none => Except.error err

/-- instance.rs `IntoErrorCode for Result<()>`:
`self.map(|_| 0).into_error_code()`. -/
def into_error_code_unit (r : Except WasmError Unit) : Except WasmError Int :=
  into_error_code_i32 (r.map fun _ => (0 : Int))

/-- C6: a guest-requested exit with code `n` becomes the successful exit code
`n` (for both the `Result<i32>` and the `Result<()>` instances); any other
error propagates unchanged; a successful unit result maps to exit code 0 and
a successful `i32` result passes through. -/
theorem C6_into_error_code (n : Int) (e : WasmError) (v : Int) :
    into_error_code_i32 (Except.error (WasmError.i32Exit n)) = Except.ok n
    ∧ into_error_code_unit (Except.error (WasmError.i32Exit n)) = Except.ok n
    ∧ (downcastI32Exit e = none →
        into_error_code_i32 (Except.error e) = Except.error e
        ∧ into_error_code_unit (Except.error e) = Except.error e)
    ∧ into_error_code_unit (Except.ok ()) = Except.ok 0
    ∧ into_error_code_i32 (Except.ok v) = Except.ok v := by
  refine ⟨rfl, rfl, ?_, rfl, rfl⟩
  intro hd
  cases e with
  | i32Exit m => simp [downcastI32Exit] at hd
  | otherError s => exact ⟨rfl, rfl⟩

/-- C6 witness: the claim theorem at concrete values: a guest exit with code
7 becomes `Ok 7`, and a non-exit error is propagated unchanged. -/
theorem C6_into_error_code_witness :
    into_error_code_i32 (Except.error (WasmError.i32Exit 7)) = Except.ok 7
    ∧ into_error_code_i32 (Except.error (WasmError.otherError "trap")) =
        Except.error (WasmError.otherError "trap") :=
  ⟨(C6_into_error_code 7 (WasmError.otherError "trap") 0).1,
   ((C6_into_error_code 7 (WasmError.otherError "trap") 0).2.2.1 rfl).1⟩

/-! ## Per-request HTTP handling (http_proxy.rs, `ProxyHandler::handle_request`) -/

/-- What the guest did with the one-shot `PendingResponse` slot: either the
sender was used once (with the guest's success response or its
producer-written error), or it was dropped without ever sending — the two
outcomes `receiver.await` distinguishes as `Ok(v)` and `Err(RecvError)`. -/
inductive SlotWrite (ρ : Type) where
  | written : Except String ρ → SlotWrite ρ
  | dropped : SlotWrite ρ

/-- The spawned guest task's terminal result as `task.await` sees it: the
closure returned `Ok(())` or `Err(e)`, or the join itself failed. -/
inductive TaskResult where
  | joined : Except String Unit → TaskResult
  | joinFailed : String → TaskResult
deriving Repr

/-- How one call to `handle_request` ends: an HTTP response, an ordinary
error result, or a crash of the handler (a Rust `panic!`, which is not a
returned value at all). -/
inductive HandleOutcome (ρ : Type) where
  | ok : ρ → HandleOutcome ρ
  | err : String → HandleOutcome ρ
  | panicked : String → HandleOutcome ρ

/-- The message `expect_err` panics with in `handle_request`. -/
def expectErrMsg : String := "if the receiver has an error, the task must have failed"

/-- The prefix of the diagnostic `handle_request` bails with when the slot
was never filled. -/
def neverSetMsg : String := "guest never invoked `response-outparam::set` method: "

/-- http_proxy.rs `ProxyHandler::handle_request`, reduced to its
response-resolution protocol: match on the slot outcome; a written value is
returned as-is (success or error); on a dropped sender, inspect the task's
own result — a task error or join error is wrapped into the specific
"guest never invoked `response-outparam::set`" diagnostic, while a task that
succeeded hits `expect_err`, which panics with its message. -/
def handle_request_outcome {ρ : Type} (slot : SlotWrite ρ) (task : TaskResult) :
    HandleOutcome ρ :=
  match slot with
  | SlotWrite.written (Except.ok resp) => HandleOutcome.ok resp
  | SlotWrite.written (Except.error e) => HandleOutcome.err e
  | SlotWrite.dropped =>
    match task with
    | TaskResult.joined (Except.ok _) => HandleOutcome.panicked expectErrMsg
    | TaskResult.joined (Except.error e) => HandleOutcome.err (neverSetMsg ++ e)
    | TaskResult.joinFailed e => HandleOutcome.err (neverSetMsg ++ e)

/-- C2: against the claim, a guest task that completes successfully without
ever writing the response slot does not produce the guest-never-replied
error result — `handle_request` crashes: `task.await` yields `Ok(Ok(()))`
and `.expect_err(...)` panics with its message. -/
theorem C2_silent_success_panics :
    handle_request_outcome (SlotWrite.dropped : SlotWrite Nat)
        (TaskResult.joined (Except.ok ())) = HandleOutcome.panicked expectErrMsg
    ∧ ∀ msg : String,
        handle_request_outcome (SlotWrite.dropped : SlotWrite Nat)
            (TaskResult.joined (Except.ok ())) ≠
          HandleOutcome.err msg := by
  refine ⟨rfl, ?_⟩
  intro msg h
  exact HandleOutcome.noConfusion h

/-- C4: a value written into the `PendingResponse` slot is returned exactly —
a success response as `ok`, a producer-written error as that error — and the
guest task's outcome after the write never changes what is returned. -/
theorem C4_written_slot_is_returned {ρ : Type} (resp : ρ) (e : String)
    (task taskAfter : TaskResult) :
    handle_request_outcome (SlotWrite.written (Except.ok resp)) task =
        HandleOutcome.ok resp
    ∧ handle_request_outcome (SlotWrite.written (Except.error e) : SlotWrite ρ) task =
        HandleOutcome.err e
    ∧ (∀ v : Except String ρ,
        handle_request_outcome (SlotWrite.written v) task =
          handle_request_outcome (SlotWrite.written v) taskAfter) :=
  ⟨rfl, rfl, fun v => by cases v <;> rfl⟩

/-! ## Signal handling around component execution
(instance.rs, `WasmtimeEngine::execute_component`) -/

/-- One resolution of the `select!` in `execute_component`'s loop: either the
pinned execution future finishes with its status, or `wait_for_signal`
resolves (with a signal number, or with an error from installing the
handlers). The list of events is the order in which the select arms fire. -/
inductive ExecEvent where
  | finished : Except String Int → ExecEvent
  | signal : Except String Int → ExecEvent
deriving Repr

/-- What the loop produced: the returned status and whether the shared
cancellation token was triggered along the way. -/
structure LoopExit where
  status : Except String Int
  cancelled : Bool
deriving Repr

/-- instance.rs `execute_component`'s `loop { select! { ... } }`: a finished
execution returns its status; a signal while `!done` cancels the shared token
and sets `done` without consuming the execution; a signal while `done`
returns `128 + sig` at once (propagating a signal-handler error), without
waiting for the execution. `none` means the event list ran out with the loop
still waiting. -/
def execute_component_loop (done cancelled : Bool) :
    List ExecEvent → Option LoopExit
  | [] => none
  | ExecEvent.finished status :: _ => some ⟨status, cancelled⟩
  | ExecEvent.signal s :: rest =>
    if done then
      some ⟨(match s with
             | Except.ok sig => Except.ok (128 + sig)
             | Except.error e => Except.error e), cancelled⟩
    else
      execute_component_loop true true rest

/-- The loop as entered by `execute_component`: `done = false` and the shared
token not yet cancelled. -/
def execute_component_run (events : List ExecEvent) : Option LoopExit :=
  execute_component_loop false false events

/-- C5: the first observed signal triggers the shared cancellation token and
the in-flight execution keeps running — the loop goes on, and when the
execution then finishes its status is returned (with the token cancelled);
a second observed signal returns `128 + sig` immediately, whatever events
would come later, without waiting for the execution; with no signal at all
the execution's status passes through and the token is never cancelled. -/
theorem C5_signal_escalation (s1 : Except String Int) (n : Int)
    (st : Except String Int) (rest : List ExecEvent) :
    execute_component_run (ExecEvent.signal s1 :: rest) =
        execute_component_loop true true rest
    ∧ execute_component_run (ExecEvent.signal s1 :: ExecEvent.finished st :: rest) =
        some ⟨st, true⟩
    ∧ execute_component_run
          (ExecEvent.signal s1 :: ExecEvent.signal (Except.ok n) :: rest) =
        some ⟨Except.ok (128 + n), true⟩
    ∧ execute_component_run (ExecEvent.finished st :: rest) = some ⟨st, false⟩ :=
  ⟨rfl, rfl, rfl, rfl⟩

/-! ## HTTP proxy server startup (http_proxy.rs, `serve_conn`) -/

/-- A socket address as the proxy configuration needs it: the listen
interface's address octets and the port. `[0, 0, 0, 0]` is the IPv4
unspecified address, i.e. all interfaces. -/
structure SocketAddress where
  ipOctets : List Nat
  port : Nat
deriving DecidableEq, Repr

/-- http_proxy.rs `DEFAULT_ADDR`: `0.0.0.0:8080`, all interfaces, port 8080. -/
def DEFAULT_ADDR : SocketAddress := ⟨[0, 0, 0, 0], 8080⟩

/-- http_proxy.rs `DEFAULT_BACKLOG`: 100. -/
def DEFAULT_BACKLOG : Nat := 100

/-- Lookup in the environment hash map: the value stored at a key. The
`HashMap` is modelled as an association list with at most one entry per key;
lookup is the first (hence only) match. -/
def lookupEnv (m : List (String × String)) (k : String) : Option String :=
  (m.find? fun p => p.1 == k).map Prod.snd

/-- `HashMap::insert`: overwrite the value at an existing key, otherwise add
the entry. -/
def mapInsert (m : List (String × String)) (k v : String) :
    List (String × String) :=
  if m.any fun p => p.1 == k then m.map fun p => if p.1 == k then (k, v) else p
  else m ++ [(k, v)]

/-- `HashMap::remove`'s effect on the map: drop the key's entry. -/
def mapRemove (m : List (String × String)) (k : String) :
    List (String × String) :=
  m.filter fun p => !(p.1 == k)

/-- `into_iter().collect::<HashMap<_,_>>()` on the `(key, value)` pairs:
later pairs with the same key overwrite earlier ones. -/
def collectMap (l : List (String × String)) : List (String × String) :=
  l.foldl (fun m p => mapInsert m p.1 p.2) []

theorem lookupEnv_mapRemove_self (m : List (String × String)) (k : String) :
    lookupEnv (mapRemove m k) k = none := by
  induction m with
  | nil => rfl
  | cons p rest ih =>
    unfold mapRemove lookupEnv at *
    cases hk : p.1 == k with
    | true =>
      simp only [List.filter_cons, hk, Bool.not_true, Bool.false_eq_true, if_false]
      exact ih
    | false =>
      simp only [List.filter_cons, hk, Bool.not_false, if_true, List.find?_cons]
      exact ih

theorem lookupEnv_mapRemove_other (m : List (String × String)) (k q : String)
    (hne : (q == k) = false) :
    lookupEnv (mapRemove m k) q = lookupEnv m q := by
  induction m with
  | nil => rfl
  | cons p rest ih =>
    unfold mapRemove lookupEnv at *
    cases hk : p.1 == k with
    | true =>
      have hq : (p.1 == q) = false := by
        have h1 : p.1 = k := by simpa using hk
        have h2 : ¬q = k := by simpa using hne
        subst h1
        simp only [beq_eq_false_iff_ne, ne_eq]
        exact fun h => h2 h.symm
      simp only [List.filter_cons, hk, Bool.not_true, Bool.false_eq_true, if_false,
        List.find?_cons, hq]
      exact ih
    | false =>
      simp only [List.filter_cons, hk, Bool.not_false, if_true, List.find?_cons]
      cases hq : p.1 == q with
      | true => rfl
      | false => exact ih

/-- The result of `serve_conn`'s startup phase: the listen address, the
accept backlog, and the environment handed to `ProxyHandler::new` (the map
with the two configuration keys consumed). -/
structure ServeSetup where
  addr : SocketAddress
  backlog : Nat
  handlerEnv : List (String × String)
deriving Repr

/-- http_proxy.rs `serve_conn`, reduced to its configuration phase: collect
the context environment into a map, `remove` the socket-address key and the
backlog key (each parsed with the standard library's fallible parser — an
external collaborator, passed in as `parseAddr` / `parseBacklog` — with
`.ok()` discarding a parse failure), and fall back to the defaults when the
variable is absent or unparseable. The remaining map is what every
per-request context shares. -/
def serve_conn_setup (parseAddr : String → Option SocketAddress)
    (parseBacklog : String → Option Nat) (envs : List String) : ServeSetup :=
  let env0 := collectMap (envs_from_ctx envs)
  let addr := ((lookupEnv env0 "WASMTIME_HTTP_PROXY_SOCKET_ADDR").bind parseAddr).getD
    DEFAULT_ADDR
  let env1 := mapRemove env0 "WASMTIME_HTTP_PROXY_SOCKET_ADDR"
  let backlog := ((lookupEnv env1 "WASMTIME_HTTP_BACKLOG").bind parseBacklog).getD
    DEFAULT_BACKLOG
  let env2 := mapRemove env1 "WASMTIME_HTTP_BACKLOG"
  ⟨addr, backlog, env2⟩

/-! ## Request ids and per-request contexts (http_proxy.rs, `ProxyHandler`) -/

/-- The modulus of a 64-bit counter. -/
def U64_LIMIT : Nat := 2 ^ 64

/-- `AtomicU64::fetch_add(1, Ordering::Relaxed)` on the handler's `next_id`
counter: the issued id is the previous value and the stored value is the
wrapping successor. The relaxed atomic still gives one total order of
increments; the event index below is that order. -/
def next_req_id (s : Nat) : Nat × Nat := (s, (s + 1) % U64_LIMIT)

/-- The counter's stored value before the k-th issuance; `ProxyHandler::new`
starts it at `AtomicU64::from(0)`. -/
def reqIdStateAt : Nat → Nat
  | 0 => 0
  | k + 1 => (next_req_id (reqIdStateAt k)).2

/-- The id issued to the k-th accepted request of one server lifetime. -/
def reqIdAt (k : Nat) : Nat := (next_req_id (reqIdStateAt k)).1

theorem reqIdStateAt_eq (k : Nat) : reqIdStateAt k = k % U64_LIMIT := by
  induction k with
  | zero => rfl
  | succ k ih =>
    show (reqIdStateAt k + 1) % U64_LIMIT = (k + 1) % U64_LIMIT
    rw [ih, Nat.mod_add_mod]

theorem reqIdAt_eq (k : Nat) : reqIdAt k = k % U64_LIMIT :=
  reqIdStateAt_eq k

/-- http_proxy.rs `ProxyHandler::wasi_store_for_request`, reduced to the
environment of the per-request WASI context: the shared handler environment
(`builder.envs(&self.0.env)`) followed by the one added entry
`REQUEST_ID=<decimal id>` (`builder.env("REQUEST_ID", req_id.to_string())`). -/
def wasi_store_env (base : List (String × String)) (req_id : Nat) :
    List (String × String) :=
  base ++ [("REQUEST_ID", toString req_id)]

theorem wasi_store_env_mem (base : List (String × String)) (req_id : Nat)
    (p : String × String) :
    p ∈ wasi_store_env base req_id ↔
      p ∈ base ∨ p = ("REQUEST_ID", toString req_id) := by
  unfold wasi_store_env
  simp

/-- C8: the ids issued within one server lifetime (one per accepted request,
in the total order of the atomic increments) are strictly increasing and
pairwise distinct as long as the 64-bit counter does not wrap, and the k-th
request's context environment is exactly the shared base environment plus
the entry `REQUEST_ID` holding the decimal representation of its id. -/
theorem C8_request_ids (i j k : Nat) (base : List (String × String)) :
    (i < j → j < U64_LIMIT → reqIdAt i < reqIdAt j)
    ∧ (i ≠ j → i < U64_LIMIT → j < U64_LIMIT → reqIdAt i ≠ reqIdAt j)
    ∧ (∀ p : String × String,
        p ∈ wasi_store_env base (reqIdAt k) ↔
          p ∈ base ∨ p = ("REQUEST_ID", toString (reqIdAt k))) := by
  refine ⟨?_, ?_, fun p => wasi_store_env_mem base (reqIdAt k) p⟩
  · intro hij hj
    rw [reqIdAt_eq, reqIdAt_eq, Nat.mod_eq_of_lt hj,
      Nat.mod_eq_of_lt (Nat.lt_trans hij hj)]
    exact hij
  · intro hne hi hj
    rw [reqIdAt_eq, reqIdAt_eq, Nat.mod_eq_of_lt hi, Nat.mod_eq_of_lt hj]
    exact hne

/-- C8 witness: the claim theorem at the first two issuances: the ids are 0
and 1, in order, and request 0's environment is the base plus
`REQUEST_ID=0`. -/
theorem C8_request_ids_witness :
    reqIdAt 0 < reqIdAt 1
    ∧ reqIdAt 0 ≠ reqIdAt 1
    ∧ ("REQUEST_ID", "0") ∈ wasi_store_env [("FOO", "1")] (reqIdAt 0) :=
  ⟨(C8_request_ids 0 1 0 [("FOO", "1")]).1 (by decide) (by decide),
   (C8_request_ids 0 1 0 [("FOO", "1")]).2.1 (by decide) (by decide) (by decide),
   ((C8_request_ids 0 1 0 [("FOO", "1")]).2.2 ("REQUEST_ID", "0")).mpr
     (Or.inr (by decide))⟩

/-- C7: the startup phase consumes `WASMTIME_HTTP_PROXY_SOCKET_ADDR` and
`WASMTIME_HTTP_BACKLOG` — neither key is present in the environment handed to
the handler (hence to any guest) — falling back to all interfaces port 8080
and backlog 100 when a key is absent; every other entry of the collected
environment is unchanged in the handler environment, and each per-request
context's environment is exactly that shared environment plus its
`REQUEST_ID` entry. -/
theorem C7_serve_conn_env (pa : String → Option SocketAddress)
    (pb : String → Option Nat) (envs : List String) (k : String) (rid : Nat) :
    lookupEnv (serve_conn_setup pa pb envs).handlerEnv
        "WASMTIME_HTTP_PROXY_SOCKET_ADDR" = none
    ∧ lookupEnv (serve_conn_setup pa pb envs).handlerEnv
        "WASMTIME_HTTP_BACKLOG" = none
    ∧ (lookupEnv (collectMap (envs_from_ctx envs))
          "WASMTIME_HTTP_PROXY_SOCKET_ADDR" = none →
        (serve_conn_setup pa pb envs).addr = SocketAddress.mk [0, 0, 0, 0] 8080)
    ∧ (lookupEnv (collectMap (envs_from_ctx envs)) "WASMTIME_HTTP_BACKLOG" = none →
        (serve_conn_setup pa pb envs).backlog = 100)
    ∧ ((k == "WASMTIME_HTTP_PROXY_SOCKET_ADDR") = false →
        (k == "WASMTIME_HTTP_BACKLOG") = false →
        lookupEnv (serve_conn_setup pa pb envs).handlerEnv k =
          lookupEnv (collectMap (envs_from_ctx envs)) k)
    ∧ (∀ p : String × String,
        p ∈ wasi_store_env (serve_conn_setup pa pb envs).handlerEnv rid ↔
          p ∈ (serve_conn_setup pa pb envs).handlerEnv ∨
            p = ("REQUEST_ID", toString rid)) := by
  refine ⟨?_, ?_, ?_, ?_, ?_,
    fun p => wasi_store_env_mem (serve_conn_setup pa pb envs).handlerEnv rid p⟩
  · show lookupEnv (mapRemove (mapRemove _ _) _) _ = none
    rw [lookupEnv_mapRemove_other _ _ _ (by decide), lookupEnv_mapRemove_self]
  · exact lookupEnv_mapRemove_self _ _
  · intro h
    show ((lookupEnv (collectMap (envs_from_ctx envs))
      "WASMTIME_HTTP_PROXY_SOCKET_ADDR").bind pa).getD DEFAULT_ADDR = _
    rw [h]
    rfl
  · intro h
    show ((lookupEnv (mapRemove (collectMap (envs_from_ctx envs))
        "WASMTIME_HTTP_PROXY_SOCKET_ADDR") "WASMTIME_HTTP_BACKLOG").bind pb).getD
      DEFAULT_BACKLOG = _
    rw [lookupEnv_mapRemove_other _ _ _ (by decide), h]
    rfl
  · intro h1 h2
    show lookupEnv (mapRemove (mapRemove _ _) _) _ = _
    rw [lookupEnv_mapRemove_other _ _ _ h2, lookupEnv_mapRemove_other _ _ _ h1]

/-- C7 witness: the claim theorem on the concrete environment `["FOO=1"]`,
where both configuration keys are absent: the defaults are used, the key
`FOO` is untouched, and request 5's context carries `REQUEST_ID=5`. -/
theorem C7_serve_conn_env_witness :
    (serve_conn_setup (fun _ => none) (fun _ => none) ["FOO=1"]).addr =
        SocketAddress.mk [0, 0, 0, 0] 8080
    ∧ (serve_conn_setup (fun _ => none) (fun _ => none) ["FOO=1"]).backlog = 100
    ∧ lookupEnv (serve_conn_setup (fun _ => none) (fun _ => none) ["FOO=1"]).handlerEnv
        "FOO" = some "1"
    ∧ ("REQUEST_ID", "5") ∈
        wasi_store_env
          (serve_conn_setup (fun _ => none) (fun _ => none) ["FOO=1"]).handlerEnv 5 := by
  have h := C7_serve_conn_env (fun _ => none) (fun _ => none) ["FOO=1"] "FOO" 5
  refine ⟨h.2.2.1 rfl, h.2.2.2.1 rfl, ?_, ?_⟩
  · rw [h.2.2.2.2.1 (by decide) (by decide)]
    rfl
  · exact (h.2.2.2.2.2 ("REQUEST_ID", "5")).mpr (Or.inr rfl)

/-- C10: when either configuration variable is present but its value fails to
parse, the server falls back to the default (all interfaces port 8080;
backlog 100) instead of failing startup, and the unparseable variable is
still removed from the guest-visible environment. -/
theorem C10_unparseable_config_defaults (pa : String → Option SocketAddress)
    (pb : String → Option Nat) (envs : List String) (v w : String) :
    (lookupEnv (collectMap (envs_from_ctx envs))
          "WASMTIME_HTTP_PROXY_SOCKET_ADDR" = some v → pa v = none →
        (serve_conn_setup pa pb envs).addr = SocketAddress.mk [0, 0, 0, 0] 8080)
    ∧ (lookupEnv (collectMap (envs_from_ctx envs)) "WASMTIME_HTTP_BACKLOG" = some w →
        pb w = none → (serve_conn_setup pa pb envs).backlog = 100)
    ∧ lookupEnv (serve_conn_setup pa pb envs).handlerEnv
        "WASMTIME_HTTP_PROXY_SOCKET_ADDR" = none
    ∧ lookupEnv (serve_conn_setup pa pb envs).handlerEnv
        "WASMTIME_HTTP_BACKLOG" = none := by
  refine ⟨?_, ?_, ?_, lookupEnv_mapRemove_self _ _⟩
  · intro h hp
    show ((lookupEnv (collectMap (envs_from_ctx envs))
      "WASMTIME_HTTP_PROXY_SOCKET_ADDR").bind pa).getD DEFAULT_ADDR = _
    rw [h, Option.some_bind, hp]
    rfl
  · intro h hp
    show ((lookupEnv (mapRemove (collectMap (envs_from_ctx envs))
        "WASMTIME_HTTP_PROXY_SOCKET_ADDR") "WASMTIME_HTTP_BACKLOG").bind pb).getD
      DEFAULT_BACKLOG = _
    rw [lookupEnv_mapRemove_other _ _ _ (by decide), h, Option.some_bind, hp]
    rfl
  · show lookupEnv (mapRemove (mapRemove _ _) _) _ = none
    rw [lookupEnv_mapRemove_other _ _ _ (by decide), lookupEnv_mapRemove_self]

/-- C10 witness: the claim theorem on an environment that sets both keys to
unparseable values (with parsers rejecting them): both defaults are used and
both keys are gone from the handler environment. -/
theorem C10_unparseable_config_witness :
    (serve_conn_setup (fun _ => none) (fun _ => none)
        ["WASMTIME_HTTP_PROXY_SOCKET_ADDR=bogus", "WASMTIME_HTTP_BACKLOG=ten"]).addr =
      SocketAddress.mk [0, 0, 0, 0] 8080
    ∧ (serve_conn_setup (fun _ => none) (fun _ => none)
        ["WASMTIME_HTTP_PROXY_SOCKET_ADDR=bogus", "WASMTIME_HTTP_BACKLOG=ten"]).backlog
      = 100 := by
  have h := C10_unparseable_config_defaults (fun _ => none) (fun _ => none)
    ["WASMTIME_HTTP_PROXY_SOCKET_ADDR=bogus", "WASMTIME_HTTP_BACKLOG=ten"]
    "bogus" "ten"
  exact ⟨h.1 rfl rfl, h.2.1 rfl rfl⟩
